import Mathlib

/-!
Shallow embedding of the webpsmux session bridge: the authentication rate
limiter (server middleware), the psmux output parsers, the multiplexer
controller, and the PTY backend's environment synthesis.  Timestamps and
durations are modelled as `Int` nanoseconds, mirroring Go's `time.Time` /
`time.Duration`; maps are modelled as association lists.
-/

namespace WebPsmux

/-- One second in nanoseconds (Go `time.Second`). -/
def second : Int := 1000000000

/-- One minute in nanoseconds (Go `time.Minute`). -/
def minute : Int := 60 * second

/-! ## Rate limiter (server middleware) -/

/-- Per-IP tracking record (`attemptInfo` in the source). -/
structure AttemptInfo where
  failCount : Nat
  lockedUntil : Int
deriving Repr, DecidableEq

/-- Rate limiter state (`rateLimiter` in the source): per-IP attempts map,
global failure timestamps, global locked-until timestamp. -/
structure RateLimiter where
  attempts : List (String × AttemptInfo)
  globalFailures : List Int
  globalLockedUntil : Int
deriving Repr, DecidableEq

/-- Fresh limiter as built by `newRateLimiter`. -/
def emptyLimiter : RateLimiter := ⟨[], [], 0⟩

/-- Association-list lookup, modelling Go map indexing. -/
def lookupA : List (String × AttemptInfo) → String → Option AttemptInfo
  | [], _ => none
  | (k, v) :: rest, ip => if k = ip then some v else lookupA rest ip

/-- Association-list write, modelling Go map assignment. -/
def setA : List (String × AttemptInfo) → String → AttemptInfo → List (String × AttemptInfo)
  | [], ip, a => [(ip, a)]
  | (k, v) :: rest, ip, a => if k = ip then (ip, a) :: rest else (k, v) :: setA rest ip a

/-- Per-IP lockout thresholds (`ipLockoutRules`): (attempts, duration). -/
def ipLockoutRules : List (Nat × Int) :=
  [(5, 1 * minute), (10, 5 * minute), (20, 15 * minute)]

/-- Global lockout thresholds (`globalLockoutRules`): (failures, duration). -/
def globalLockoutRules : List (Nat × Int) :=
  [(100, 2 * minute), (200, 10 * minute), (500, 30 * minute)]

/-- The global sliding-window width (`globalWindowDuration`). -/
def globalWindowDuration : Int := 5 * minute

/-- Prune global failures outside the sliding window (`pruneGlobalFailures`):
keep timestamps strictly after `now - globalWindowDuration` (Go `t.After(cutoff)`). -/
def pruneGlobalFailures (failures : List Int) (now : Int) : List Int :=
  failures.filter (fun t => decide (now - globalWindowDuration < t))

/-- The source's `for _, rule := range ipLockoutRules` loop body as a fold. -/
def foldIpRules (lu now : Int) (n : Nat) : Int :=
  ipLockoutRules.foldl (fun lu r => if r.1 ≤ n then now + r.2 else lu) lu

/-- The source's `for _, rule := range globalLockoutRules` loop body as a fold. -/
def foldGlobalRules (lu now : Int) (n : Nat) : Int :=
  globalLockoutRules.foldl (fun lu r => if r.1 ≤ n then now + r.2 else lu) lu

/-- Record a failed login attempt (`recordFailure`): bump the per-IP count,
re-apply every per-IP rule in ascending order, append the failure to the
global window, prune it, and re-apply every global rule in ascending order. -/
def recordFailure (rl : RateLimiter) (ip : String) (now : Int) : RateLimiter :=
  let info := (lookupA rl.attempts ip).getD ⟨0, 0⟩
  let newCount := info.failCount + 1
  let newLocked := foldIpRules info.lockedUntil now newCount
  let failures := pruneGlobalFailures (rl.globalFailures ++ [now]) now
  let gLocked := foldGlobalRules rl.globalLockedUntil now failures.length
  { attempts := setA rl.attempts ip ⟨newCount, newLocked⟩
    globalFailures := failures
    globalLockedUntil := gLocked }

/-- Record a successful login (`recordSuccess`): if an entry exists for the
IP, zero its fail count and clear its locked-until timestamp. -/
def recordSuccess (rl : RateLimiter) (ip : String) : RateLimiter :=
  match lookupA rl.attempts ip with
  | some _ => { rl with attempts := setA rl.attempts ip ⟨0, 0⟩ }
  | none => rl

/-- Periodic cleanup (`cleanup`): drop per-IP entries whose locked-until is
before `now - 30min` and whose fail count is 0; prune the global window. -/
def cleanup (rl : RateLimiter) (now : Int) : RateLimiter :=
  let cutoff := now - 30 * minute
  { rl with
    attempts := rl.attempts.filter
      (fun kv => !(decide (kv.2.lockedUntil < cutoff) && decide (kv.2.failCount = 0)))
    globalFailures := pruneGlobalFailures rl.globalFailures now }

/-- Lockout check (`checkLocked`): global lock first, then the source's own. -/
def checkLocked (rl : RateLimiter) (ip : String) (now : Int) : Bool × Int × String :=
  if now < rl.globalLockedUntil then (true, rl.globalLockedUntil - now, "global")
  else
    match lookupA rl.attempts ip with
    | some info =>
      if now < info.lockedUntil then (true, info.lockedUntil - now, "ip")
      else (false, 0, "")
    | none => (false, 0, "")

/-- The lockout branch of `wrapBasicAuth`: when `checkLocked` reports a lock,
a 429 response carries `Retry-After = int(remaining.Seconds()) + 1`, i.e. the
remaining nanoseconds truncated to whole seconds, plus one. -/
def lockoutRetryAfter (rl : RateLimiter) (ip : String) (now : Int) : Option (Nat × String) :=
  match checkLocked rl ip now with
  | (true, rem, ty) => some (rem.toNat / 1000000000 + 1, ty)
  | (false, _, _) => none

/-- Effective fail count of a source (0 when no entry exists). -/
def failCountOf (rl : RateLimiter) (ip : String) : Nat :=
  ((lookupA rl.attempts ip).map AttemptInfo.failCount).getD 0

/-- Effective locked-until of a source (the zero time when no entry exists). -/
def lockedUntilOf (rl : RateLimiter) (ip : String) : Int :=
  ((lookupA rl.attempts ip).map AttemptInfo.lockedUntil).getD 0

/-- Fold `recordFailure` for one source over a list of failure times. -/
def applyFailures (rl : RateLimiter) (ip : String) (ts : List Int) : RateLimiter :=
  ts.foldl (fun s t => recordFailure s ip t) rl

/-! ### Basic lookup/update lemmas -/

theorem lookupA_setA_same (l : List (String × AttemptInfo)) (ip : String) (a : AttemptInfo) :
    lookupA (setA l ip a) ip = some a := by
  induction l with
  | nil => simp [setA, lookupA]
  | cons kv rest ih =>
    by_cases h : kv.1 = ip
    · simp [setA, h, lookupA]
    · simp [setA, h, lookupA, ih]

theorem lookupA_setA_other (l : List (String × AttemptInfo)) (ip k : String) (a : AttemptInfo)
    (hne : k ≠ ip) : lookupA (setA l ip a) k = lookupA l k := by
  induction l with
  | nil =>
    simp only [setA, lookupA]
    rw [if_neg (Ne.symm hne)]
  | cons kv rest ih =>
    rcases kv with ⟨k0, v0⟩
    by_cases h : k0 = ip
    · subst h
      simp only [setA, if_pos rfl, lookupA]
      rw [if_neg (Ne.symm hne), if_neg (Ne.symm hne)]
    · simp only [setA, if_neg h, lookupA]
      by_cases h2 : k0 = k
      · simp [h2]
      · simp [h2, ih]

/-- Closed form of the per-IP rule fold: the largest satisfied threshold wins,
and below the smallest threshold the old value is kept. -/
theorem foldIpRules_eq (lu now : Int) (n : Nat) :
    foldIpRules lu now n =
      (if 20 ≤ n then now + 15 * minute
       else if 10 ≤ n then now + 5 * minute
       else if 5 ≤ n then now + 1 * minute
       else lu) := by
  simp only [foldIpRules, ipLockoutRules, List.foldl]

/-- Closed form of the global rule fold. -/
theorem foldGlobalRules_eq (lu now : Int) (n : Nat) :
    foldGlobalRules lu now n =
      (if 500 ≤ n then now + 30 * minute
       else if 200 ≤ n then now + 10 * minute
       else if 100 ≤ n then now + 2 * minute
       else lu) := by
  simp only [foldGlobalRules, globalLockoutRules, List.foldl]

/-- Single-step characterization of `recordFailure` on the source's entry. -/
theorem recordFailure_entry (rl : RateLimiter) (ip : String) (t : Int) :
    lookupA (recordFailure rl ip t).attempts ip =
      some ⟨failCountOf rl ip + 1,
        if 20 ≤ failCountOf rl ip + 1 then t + 15 * minute
        else if 10 ≤ failCountOf rl ip + 1 then t + 5 * minute
        else if 5 ≤ failCountOf rl ip + 1 then t + 1 * minute
        else lockedUntilOf rl ip⟩ := by
  simp only [recordFailure, lookupA_setA_same, foldIpRules_eq, failCountOf, lockedUntilOf]
  cases h : lookupA rl.attempts ip with
  | none => simp [h]
  | some info => simp [h]

/-- The per-source lock value the claim predicts after the n-th failure at time `t`. -/
def ipLockFormula (n : Nat) (t : Int) : Int :=
  if 20 ≤ n then t + 15 * minute
  else if 10 ≤ n then t + 5 * minute
  else if 5 ≤ n then t + 1 * minute
  else 0

theorem applyFailures_entry (ip : String) :
    ∀ ts : List Int,
      failCountOf (applyFailures emptyLimiter ip ts) ip = ts.length ∧
      lockedUntilOf (applyFailures emptyLimiter ip ts) ip =
        (match ts.getLast? with
         | none => 0
         | some t => ipLockFormula ts.length t) := by
  intro ts
  induction ts using List.reverseRecOn with
  | nil => simp [applyFailures, emptyLimiter, failCountOf, lockedUntilOf, lookupA]
  | append_singleton ts t ih =>
    have hfold : applyFailures emptyLimiter ip (ts ++ [t]) =
        recordFailure (applyFailures emptyLimiter ip ts) ip t := by
      simp [applyFailures, List.foldl_append]
    have hstep := recordFailure_entry (applyFailures emptyLimiter ip ts) ip t
    rw [ih.1, ih.2] at hstep
    constructor
    · rw [hfold]
      simp [failCountOf, hstep]
    · rw [hfold]
      simp only [lockedUntilOf, hstep, Option.map_some', Option.getD_some]
      simp only [List.getLast?_append, List.getLast?_singleton, List.length_append,
        List.length_singleton, ipLockFormula]
      by_cases h20 : 20 ≤ ts.length + 1
      · simp [h20]
      · by_cases h10 : 10 ≤ ts.length + 1
        · simp [h20, h10]
        · by_cases h5 : 5 ≤ ts.length + 1
          · simp [h20, h10, h5]
          · have hlt : ¬ 5 ≤ ts.length := by omega
            have h10' : ¬ 10 ≤ ts.length := by omega
            have h20' : ¬ 20 ≤ ts.length := by omega
            simp only [h20, h10, h5, if_false]
            cases hts : ts.getLast? with
            | none => simp
            | some t0 => simp [h20', h10', hlt]

/-- C1: after `n` failures for a source (the last at time `t`) with no
intervening success, the fail count equals `n` and the lock is `t + 1min`
once `n` reaches 5, `t + 5min` once `n` reaches 10, `t + 15min` once `n`
reaches 20, the largest satisfied threshold winning, and no lock at all for
`n < 5`. -/
theorem c1_per_ip_lockout_thresholds (ip : String) (ts : List Int) (t : Int) :
    failCountOf (applyFailures emptyLimiter ip (ts ++ [t])) ip = ts.length + 1 ∧
    lockedUntilOf (applyFailures emptyLimiter ip (ts ++ [t])) ip =
      (if 20 ≤ ts.length + 1 then t + 15 * minute
       else if 10 ≤ ts.length + 1 then t + 5 * minute
       else if 5 ≤ ts.length + 1 then t + 1 * minute
       else 0) := by
  have h := applyFailures_entry ip (ts ++ [t])
  refine ⟨by simpa using h.1, ?_⟩
  rw [h.2]
  simp [List.getLast?_append, ipLockFormula]

theorem recordFailure_globalFailures (rl : RateLimiter) (ip : String) (t : Int) :
    (recordFailure rl ip t).globalFailures =
      pruneGlobalFailures (rl.globalFailures ++ [t]) t := rfl

theorem recordFailure_globalLockedUntil (rl : RateLimiter) (ip : String) (t : Int) :
    (recordFailure rl ip t).globalLockedUntil =
      foldGlobalRules rl.globalLockedUntil t
        (pruneGlobalFailures (rl.globalFailures ++ [t]) t).length := rfl

/-- C2: a failure timestamp more than 5 minutes old at recording time never
survives the prune, and when the pruned window holds at least 100 but fewer
than 200 failures the global lock becomes `t + 2min`. -/
theorem c2_global_window (rl : RateLimiter) (ip : String) (t : Int) :
    (∀ x ∈ rl.globalFailures, x < t - globalWindowDuration →
      x ∉ (recordFailure rl ip t).globalFailures) ∧
    (100 ≤ (pruneGlobalFailures (rl.globalFailures ++ [t]) t).length →
      (pruneGlobalFailures (rl.globalFailures ++ [t]) t).length < 200 →
      (recordFailure rl ip t).globalLockedUntil = t + 2 * minute) := by
  constructor
  · intro x _ hlt hmem
    rw [recordFailure_globalFailures] at hmem
    simp only [pruneGlobalFailures, List.mem_filter, decide_eq_true_eq] at hmem
    omega
  · intro h100 h200
    rw [recordFailure_globalLockedUntil, foldGlobalRules_eq]
    rw [if_neg (by omega), if_neg (by omega), if_pos h100]

theorem c2_global_window_witness :
    ((-400000000000 : Int) ∉
      (recordFailure ⟨[], List.replicate 99 (0 : Int) ++ [-400000000000], 0⟩ "a" 0).globalFailures) ∧
    (recordFailure ⟨[], List.replicate 99 (0 : Int) ++ [-400000000000], 0⟩ "a" 0).globalLockedUntil =
      120000000000 := by
  have h := c2_global_window ⟨[], List.replicate 99 (0 : Int) ++ [-400000000000], 0⟩ "a" 0
  refine ⟨h.1 (-400000000000) (by simp) (by decide), ?_⟩
  rw [h.2 (by decide) (by decide)]
  decide

/-- C3: a recorded success zeroes the caller's own fail count and lock and
changes nothing else — the global window, the global lock, and every other
source's entry are untouched. -/
theorem c3_record_success_frame (rl : RateLimiter) (ip : String) :
    failCountOf (recordSuccess rl ip) ip = 0 ∧
    lockedUntilOf (recordSuccess rl ip) ip = 0 ∧
    (recordSuccess rl ip).globalFailures = rl.globalFailures ∧
    (recordSuccess rl ip).globalLockedUntil = rl.globalLockedUntil ∧
    (∀ k, k ≠ ip → lookupA (recordSuccess rl ip).attempts k = lookupA rl.attempts k) := by
  cases h : lookupA rl.attempts ip with
  | none =>
    have hr : recordSuccess rl ip = rl := by simp [recordSuccess, h]
    rw [hr]
    exact ⟨by simp [failCountOf, h], by simp [lockedUntilOf, h], rfl, rfl, fun k _ => rfl⟩
  | some info =>
    have hr : recordSuccess rl ip = { rl with attempts := setA rl.attempts ip ⟨0, 0⟩ } := by
      simp [recordSuccess, h]
    rw [hr]
    exact ⟨by simp [failCountOf, lookupA_setA_same], by simp [lockedUntilOf, lookupA_setA_same],
      rfl, rfl, fun k hk => lookupA_setA_other _ _ _ _ hk⟩

theorem c3_record_success_frame_witness :
    failCountOf (recordSuccess ⟨[("a", ⟨7, 5⟩), ("b", ⟨2, 9⟩)], [3], 4⟩ "a") "a" = 0 ∧
    lockedUntilOf (recordSuccess ⟨[("a", ⟨7, 5⟩), ("b", ⟨2, 9⟩)], [3], 4⟩ "a") "a" = 0 ∧
    (recordSuccess ⟨[("a", ⟨7, 5⟩), ("b", ⟨2, 9⟩)], [3], 4⟩ "a").globalFailures = [3] ∧
    (recordSuccess ⟨[("a", ⟨7, 5⟩), ("b", ⟨2, 9⟩)], [3], 4⟩ "a").globalLockedUntil = 4 ∧
    lookupA (recordSuccess ⟨[("a", ⟨7, 5⟩), ("b", ⟨2, 9⟩)], [3], 4⟩ "a").attempts "b" =
      some ⟨2, 9⟩ := by
  have h := c3_record_success_frame ⟨[("a", ⟨7, 5⟩), ("b", ⟨2, 9⟩)], [3], 4⟩ "a"
  exact ⟨h.1, h.2.1, h.2.2.1, h.2.2.2.1, by rw [h.2.2.2.2 "b" (by decide)]; decide⟩

/-! ### C8: cleanup retention -/

/-- C8 counterexample: a source with one-or-more recorded failures, never
locked (zero locked-until) and idle far beyond the 30-minute retention, is
retained by `cleanup`, because the code also requires `failCount == 0`. -/
theorem c8_counterexample :
    (0 : Int) < 1000000000000000000 - 30 * minute ∧
    lookupA (cleanup ⟨[("1.2.3.4", ⟨3, 0⟩)], [], 0⟩ 1000000000000000000).attempts "1.2.3.4" =
      some ⟨3, 0⟩ := by
  exact ⟨by decide, by decide⟩

theorem lookupA_none_of_forall (k : String) :
    ∀ l : List (String × AttemptInfo), (∀ kv ∈ l, kv.1 ≠ k) → lookupA l k = none := by
  intro l
  induction l with
  | nil => intro _; rfl
  | cons kv rest ih =>
    intro h
    have h1 : kv.1 ≠ k := h kv (by simp)
    simp only [lookupA, if_neg h1]
    exact ih fun x hx => h x (by simp [hx])

theorem lookupA_filter (p : String × AttemptInfo → Bool) (k : String) (info : AttemptInfo) :
    ∀ l : List (String × AttemptInfo), (l.map Prod.fst).Nodup →
      lookupA l k = some info →
      lookupA (l.filter p) k = (if p (k, info) then some info else none) := by
  intro l
  induction l with
  | nil => intro _ h; cases h
  | cons kv rest ih =>
    intro hnodup h
    rcases kv with ⟨k0, v0⟩
    simp only [List.map_cons, List.nodup_cons] at hnodup
    by_cases hk : k0 = k
    · subst hk
      simp only [lookupA, eq_self_iff_true, if_true, Option.some.injEq] at h
      subst h
      by_cases hp : p (k0, v0)
      · simp [List.filter, hp, lookupA]
      · simp only [List.filter, hp, if_neg hp]
        simp only [Bool.false_eq_true, if_false]
        exact lookupA_none_of_forall k0 _ fun kv hkv => by
          have hmem := List.mem_of_mem_filter hkv
          intro heq
          exact hnodup.1 (heq ▸ List.mem_map_of_mem Prod.fst hmem)
    · simp only [lookupA, if_neg hk] at h
      have := ih hnodup.2 h
      cases hp0 : p (k0, v0) <;> simp [List.filter, hp0, lookupA, hk, this]

/-- C8 amended: `cleanup` keeps a source's entry unless the entry's fail
count is 0 and its locked-until lies more than 30 minutes in the past; in
particular an entry with a nonzero fail count is never dropped, however
idle, so per-source state can grow without bound under sustained failures. -/
theorem c8_cleanup_amended (rl : RateLimiter) (now : Int) (k : String) (info : AttemptInfo)
    (hnodup : (rl.attempts.map Prod.fst).Nodup)
    (h : lookupA rl.attempts k = some info) :
    lookupA (cleanup rl now).attempts k =
      (if info.lockedUntil < now - 30 * minute ∧ info.failCount = 0 then none
       else some info) := by
  have := lookupA_filter
    (fun kv => !(decide (kv.2.lockedUntil < now - 30 * minute) && decide (kv.2.failCount = 0)))
    k info rl.attempts hnodup h
  simp only [cleanup]
  rw [this]
  by_cases hc : info.lockedUntil < now - 30 * minute ∧ info.failCount = 0
  · rw [if_pos hc]
    simp [hc.1, hc.2]
  · rw [if_neg hc]
    rcases Decidable.not_and_iff_or_not.mp hc with hc1 | hc2
    · simp [hc1]
    · simp [hc2]

theorem c8_cleanup_amended_witness :
    lookupA (cleanup ⟨[("a", ⟨0, 0⟩), ("b", ⟨1, 0⟩)], [], 0⟩ 1000000000000000000).attempts "a" =
      none ∧
    lookupA (cleanup ⟨[("a", ⟨0, 0⟩), ("b", ⟨1, 0⟩)], [], 0⟩ 1000000000000000000).attempts "b" =
      some ⟨1, 0⟩ := by
  have ha := c8_cleanup_amended ⟨[("a", ⟨0, 0⟩), ("b", ⟨1, 0⟩)], [], 0⟩ 1000000000000000000
    "a" ⟨0, 0⟩ (by decide) (by decide)
  have hb := c8_cleanup_amended ⟨[("a", ⟨0, 0⟩), ("b", ⟨1, 0⟩)], [], 0⟩ 1000000000000000000
    "b" ⟨1, 0⟩ (by decide) (by decide)
  rw [ha, hb]
  exact ⟨by rw [if_pos (by decide)], by rw [if_neg (by decide)]⟩

/-! ### C9: Retry-After value -/

/-- C9 counterexample: with 1.5 seconds of lockout remaining the code sends
Retry-After 2 — the remaining seconds truncated downward, plus one — while
the claim's value (remaining rounded up to the next whole second, plus one)
is 3. -/
theorem c9_counterexample :
    lockoutRetryAfter ⟨[], [], 1500000000⟩ "a" 0 = some (2, "global") ∧
    ((1500000000 + (1000000000 - 1)) / 1000000000 + 1 : Nat) = 3 ∧ (2 : Nat) ≠ 3 := by
  exact ⟨by decide, by decide, by decide⟩

/-- C9 amended: the Retry-After value is the remaining lockout duration in
nanoseconds truncated to whole seconds, plus one; the global lock takes
precedence, otherwise the source's own lock is reported. -/
theorem c9_retry_after_amended (rl : RateLimiter) (ip : String) (now : Int) :
    (now < rl.globalLockedUntil →
      lockoutRetryAfter rl ip now =
        some ((rl.globalLockedUntil - now).toNat / 1000000000 + 1, "global")) ∧
    (∀ info, ¬ now < rl.globalLockedUntil → lookupA rl.attempts ip = some info →
      now < info.lockedUntil →
      lockoutRetryAfter rl ip now =
        some ((info.lockedUntil - now).toNat / 1000000000 + 1, "ip")) := by
  constructor
  · intro h
    simp [lockoutRetryAfter, checkLocked, h]
  · intro info hg hl hn
    simp [lockoutRetryAfter, checkLocked, hg, hl, hn]

theorem c9_retry_after_amended_witness :
    lockoutRetryAfter ⟨[], [], 2500000000⟩ "a" 0 = some (3, "global") ∧
    lockoutRetryAfter ⟨[("a", ⟨6, 2500000000⟩)], [], 0⟩ "a" 0 = some (3, "ip") := by
  have h1 := (c9_retry_after_amended ⟨[], [], 2500000000⟩ "a" 0).1 (by decide)
  have h2 := (c9_retry_after_amended ⟨[("a", ⟨6, 2500000000⟩)], [], 0⟩ "a" 0).2
    ⟨6, 2500000000⟩ (by decide) (by decide) (by decide)
  rw [h1, h2]
  exact ⟨by decide, by decide⟩

/-! ## Multiplexer data model (pkg/psmux/types.go) -/

/-- Pane record (`Pane` in types.go). -/
structure Pane where
  ID : String := ""
  Index : Nat := 0
  Active : Bool := false
  Width : Nat := 0
  Height : Nat := 0
  Top : Int := 0
  Left : Int := 0
  Command : String := ""
  Title : String := ""
deriving Repr, DecidableEq

/-- Session summary record (`Session` in types.go). -/
structure Session where
  ID : String := ""
  Name : String := ""
  Windows : Nat := 0
  Attached : Bool := false
  Active : Bool := false
deriving Repr, DecidableEq

/-- Window record (`Window` in types.go). -/
structure Window where
  ID : String := ""
  Name : String := ""
  Index : Nat := 0
  Active : Bool := false
  Panes : List Pane := []
deriving Repr, DecidableEq

/-- Layout snapshot (`Layout` in types.go). -/
structure Layout where
  SessionID : String := ""
  SessionName : String := ""
  Sessions : List Session := []
  Windows : List Window := []
  ActiveWinID : String := ""
  ActivePaneID : String := ""
deriving Repr, DecidableEq

/-! ## Multiplexer output parser (pkg/psmux, part of part_003)

Lines are modelled as `List Char`; the three line regexes are embedded as
deterministic matchers (each is unambiguous, see the comments). -/

/-- Go `unicode.IsSpace` restricted to ASCII, as used by `strings.TrimSpace`. -/
def isSpaceGo (c : Char) : Bool :=
  c = ' ' || c = '\t' || c = '\n' || c = '\r' || c = Char.ofNat 11 || c = Char.ofNat 12

/-- Go regexp class `\s`, i.e. `[\t\n\f\r ]`. -/
def isSpaceRE (c : Char) : Bool :=
  c = ' ' || c = '\t' || c = '\n' || c = '\r' || c = Char.ofNat 12

/-- Go `strings.TrimSpace` on a character list. -/
def trimGo (cs : List Char) : List Char :=
  ((cs.dropWhile isSpaceGo).reverse.dropWhile isSpaceGo).reverse

/-- Go `strings.Split(s, "\n")`: always at least one piece. -/
def splitNl : List Char → List (List Char)
  | [] => [[]]
  | c :: rest =>
    if c = '\n' then [] :: splitNl rest
    else
      match splitNl rest with
      | [] => [[c]]
      | l :: ls => (c :: l) :: ls

/-- Consume an exact literal, returning the remainder. -/
def dropLit : List Char → List Char → Option (List Char)
  | [], cs => some cs
  | _ :: _, [] => none
  | p :: ps, c :: cs => if c = p then dropLit ps cs else none

/-- Go `strconv.Atoi` on an all-digit string. -/
def digitsToNat (ds : List Char) : Nat :=
  ds.foldl (fun n c => n * 10 + (c.toNat - '0'.toNat)) 0

/-- Greedily take a nonempty digit run (`\d+`); the following char is never
a digit in the three regexes, so greediness is deterministic here. -/
def takeDigits (cs : List Char) : Option (List Char × List Char) :=
  let ds := cs.takeWhile Char.isDigit
  if ds.isEmpty then none else some (ds, cs.dropWhile Char.isDigit)

/-- Literal-at-front test. -/
def startsW (pat cs : List Char) : Bool := (dropLit pat cs).isSome

/-- Go `strings.Contains`. -/
def containsSub (pat : List Char) : List Char → Bool
  | [] => pat.isEmpty
  | c :: rest => startsW pat (c :: rest) || containsSub pat rest

/-- Match one trimmed session line against
`^(\S+): (\d+) windows \(created [^)]+\) \[(\d+)x(\d+)\](?: \(attached\))?$`
and build the `Session` that `ParseSessions` builds from it.  The match is
deterministic: `(\S+)` is followed by `": "`, and the space terminates the
leading nonspace run, so that run must be the name plus the trailing colon;
`[^)]+` stops at the first `)`; the attached flag is an independent
substring check on the whole line, as in the source. -/
def sessionOf (cs : List Char) : Option Session := do
  let w := cs.takeWhile (fun c => !isSpaceRE c)
  let rest0 := cs.drop w.length
  if 2 ≤ w.length ∧ w.getLast? = some ':' then
    let name := w.dropLast
    let rest1 ← dropLit [' '] rest0
    let (d2, rest2) ← takeDigits rest1
    let rest3 ← dropLit " windows (created ".toList rest2
    let created := rest3.takeWhile (fun c => c != ')')
    if created.isEmpty then none else do
    let rest4 ← dropLit ") [".toList (rest3.drop created.length)
    let (_, rest5) ← takeDigits rest4
    let rest6 ← dropLit ['x'] rest5
    let (_, rest7) ← takeDigits rest6
    let rest8 ← dropLit [']'] rest7
    if rest8.isEmpty || rest8 == " (attached)".toList then
      some { ID := String.mk name, Name := String.mk name,
             Windows := digitsToNat d2,
             Attached := containsSub "(attached)".toList cs,
             Active := false }
    else none
  else none

/-- Match one trimmed window line against
`^(\d+): (\S+?)(\*)? \((\d+) panes?\) \[(\d+)x(\d+)\]$` and build the
`Window` that `ParseWindows` builds from it.  `(\S+?)(\*)?` is followed by a
space, so the name-plus-optional-star is the nonspace run after `": "`; the
lazy quantifier makes a trailing `*` the active marker whenever a nonempty
name precedes it.  The char after `panes?` is `)`, never `s`, so consuming
an `s` when present is equivalent to the optional group. -/
def windowCore (cs : List Char) : Option (List Char × List Char × Bool) := do
  let (d1, r1) ← takeDigits cs
  let r2 ← dropLit ": ".toList r1
  let w := r2.takeWhile (fun c => !isSpaceRE c)
  if w.isEmpty then none else do
  let r3 := r2.drop w.length
  let na :=
    if 2 ≤ w.length ∧ w.getLast? = some '*' then (w.dropLast, true) else (w, false)
  let r4 ← dropLit " (".toList r3
  let (_, r5) ← takeDigits r4
  let r6 ← dropLit " pane".toList r5
  let r7 := match dropLit ['s'] r6 with
    | some r => r
    | none => r6
  let r8 ← dropLit ") [".toList r7
  let (_, r9) ← takeDigits r8
  let r10 ← dropLit ['x'] r9
  let (_, r11) ← takeDigits r10
  let r12 ← dropLit [']'] r11
  if r12.isEmpty then some (d1, na.1, na.2) else none

/-- The `Window` that `ParseWindows` builds from a matching line
(`Panes` starts empty; they are filled in only by `RefreshLayout`). -/
def windowOf (cs : List Char) : Option Window :=
  (windowCore cs).map fun x =>
    { ID := "@" ++ toString (digitsToNat x.1), Name := String.mk x.2.1,
      Index := digitsToNat x.1, Active := x.2.2, Panes := [] }

/-- Match the pane-line regex `^(%\d+): \[(\d+)x(\d+)\]` (a prefix match:
trailing metadata is ignored), returning the id digits, width and height. -/
def paneCore (cs : List Char) : Option (List Char × Nat × Nat) := do
  let r1 ← dropLit ['%'] cs
  let (d, r2) ← takeDigits r1
  let r3 ← dropLit ": [".toList r2
  let (dw, r4) ← takeDigits r3
  let r5 ← dropLit ['x'] r4
  let (dh, r6) ← takeDigits r5
  let _ ← dropLit [']'] r6
  some (d, digitsToNat dw, digitsToNat dh)

/-- The `Pane` built by `ParsePanes` from split-line index `i`. -/
def paneOf (i : Nat) (cs : List Char) : Option Pane :=
  (paneCore cs).map fun x =>
    { ID := String.mk ('%' :: x.1), Index := i, Active := i == 0,
      Width := x.2.1, Height := x.2.2 }

/-- The shared per-line loop of the three parsers: trim each line, skip
empties, fail hard on the first rejected line, collect one element per
matching line.  `i` is the index in the split list, empty lines included,
exactly as Go's `for i, line := range`. -/
def parseLinesWith (f : Nat → List Char → Option α) (msg : String) :
    List (List Char) → Nat → Except String (List α)
  | [], _ => .ok []
  | l :: ls, i =>
    let l' := trimGo l
    if l'.isEmpty then parseLinesWith f msg ls (i + 1)
    else
      match f i l' with
      | none => .error (msg ++ String.mk l')
      | some a =>
        match parseLinesWith f msg ls (i + 1) with
        | .error e => .error e
        | .ok as => .ok (a :: as)

/-- `ParseSessions` from the source. -/
def ParseSessions (output : String) : Except String (List Session) :=
  parseLinesWith (fun _ l => sessionOf l) "failed to parse session line: "
    (splitNl (trimGo output.data)) 0

/-- `ParseWindows` from the source. -/
def ParseWindows (output : String) : Except String (List Window) :=
  parseLinesWith (fun _ l => windowOf l) "failed to parse window line: "
    (splitNl (trimGo output.data)) 0

/-- `ParsePanes` from the source. -/
def ParsePanes (output : String) : Except String (List Pane) :=
  parseLinesWith paneOf "failed to parse pane line: " (splitNl (trimGo output.data)) 0

/-- The non-empty trimmed lines of a split listing. -/
def neLines (ls : List (List Char)) : List (List Char) :=
  (ls.map trimGo).filter (fun l => !l.isEmpty)

theorem neLines_nil : neLines [] = [] := rfl

theorem neLines_cons_empty (l : List Char) (ls : List (List Char))
    (he : (trimGo l).isEmpty = true) : neLines (l :: ls) = neLines ls := by
  simp [neLines, List.filter_cons, he]

theorem neLines_cons_nonempty (l : List Char) (ls : List (List Char))
    (he : (trimGo l).isEmpty = false) : neLines (l :: ls) = trimGo l :: neLines ls := by
  simp [neLines, List.filter_cons, he]

theorem parseLinesWith_ok {α : Type} (f : Nat → List Char → Option α) (msg : String) :
    ∀ (ls : List (List Char)) (i : Nat),
      (∀ l ∈ neLines ls, ∀ j, (f j l).isSome) →
      ∃ xs, parseLinesWith f msg ls i = .ok xs ∧ xs.length = (neLines ls).length := by
  intro ls
  induction ls with
  | nil => exact fun i _ => ⟨[], rfl, by simp [neLines]⟩
  | cons l rest ih =>
    intro i hall
    cases he : (trimGo l).isEmpty with
    | true =>
      rw [neLines_cons_empty l rest he] at hall ⊢
      obtain ⟨xs, hxs, hlen⟩ := ih (i + 1) hall
      exact ⟨xs, by simp [parseLinesWith, he, hxs], hlen⟩
    | false =>
      rw [neLines_cons_nonempty l rest he] at hall ⊢
      have hsome := hall (trimGo l) (by simp) i
      obtain ⟨a, ha⟩ := Option.isSome_iff_exists.mp hsome
      obtain ⟨xs, hxs, hlen⟩ := ih (i + 1) fun l2 hl2 j => hall l2 (by simp [hl2]) j
      exact ⟨a :: xs, by simp [parseLinesWith, he, ha, hxs], by simp [hlen]⟩

theorem parseLinesWith_error {α : Type} (f : Nat → List Char → Option α) (msg : String) :
    ∀ (ls : List (List Char)) (i : Nat) (l0 : List Char),
      l0 ∈ neLines ls → (∀ j, f j l0 = none) →
      ∃ e, parseLinesWith f msg ls i = .error e := by
  intro ls
  induction ls with
  | nil => intro i l0 h _; simp [neLines] at h
  | cons l rest ih =>
    intro i l0 hmem hnone
    cases he : (trimGo l).isEmpty with
    | true =>
      rw [neLines_cons_empty l rest he] at hmem
      obtain ⟨e, hee⟩ := ih (i + 1) l0 hmem hnone
      exact ⟨e, by simp [parseLinesWith, he, hee]⟩
    | false =>
      rw [neLines_cons_nonempty l rest he] at hmem
      rcases List.mem_cons.mp hmem with heq | hmem2
      · subst heq
        exact ⟨msg ++ String.mk (trimGo l), by simp [parseLinesWith, he, hnone i]⟩
      · cases hf : f i (trimGo l) with
        | none => exact ⟨msg ++ String.mk (trimGo l), by simp [parseLinesWith, he, hf]⟩
        | some a =>
          obtain ⟨e, hee⟩ := ih (i + 1) l0 hmem2 hnone
          exact ⟨e, by simp [parseLinesWith, he, hf, hee]⟩

/-- C4: for each of the three parsers and every input, if every non-empty
(trimmed) line matches that parser's line grammar — including inputs with
no non-empty lines — the call succeeds with one element per matching line,
and if any non-empty line fails to match, the whole call returns an error
and no partial result. -/
theorem c4_parsers_all_or_nothing (output : String) :
    ((∀ l ∈ neLines (splitNl (trimGo output.data)), (sessionOf l).isSome) →
      ∃ xs, ParseSessions output = .ok xs ∧
        xs.length = (neLines (splitNl (trimGo output.data))).length) ∧
    ((∃ l ∈ neLines (splitNl (trimGo output.data)), sessionOf l = none) →
      ∃ e, ParseSessions output = .error e) ∧
    ((∀ l ∈ neLines (splitNl (trimGo output.data)), (windowOf l).isSome) →
      ∃ xs, ParseWindows output = .ok xs ∧
        xs.length = (neLines (splitNl (trimGo output.data))).length) ∧
    ((∃ l ∈ neLines (splitNl (trimGo output.data)), windowOf l = none) →
      ∃ e, ParseWindows output = .error e) ∧
    ((∀ l ∈ neLines (splitNl (trimGo output.data)), (paneCore l).isSome) →
      ∃ xs, ParsePanes output = .ok xs ∧
        xs.length = (neLines (splitNl (trimGo output.data))).length) ∧
    ((∃ l ∈ neLines (splitNl (trimGo output.data)), paneCore l = none) →
      ∃ e, ParsePanes output = .error e) := by
  refine ⟨?_, ?_, ?_, ?_, ?_, ?_⟩
  · exact fun h => parseLinesWith_ok _ _ _ 0 fun l hl _ => h l hl
  · rintro ⟨l, hl, hnone⟩
    exact parseLinesWith_error _ _ _ 0 l hl fun _ => hnone
  · exact fun h => parseLinesWith_ok _ _ _ 0 fun l hl _ => h l hl
  · rintro ⟨l, hl, hnone⟩
    exact parseLinesWith_error _ _ _ 0 l hl fun _ => hnone
  · refine fun h => parseLinesWith_ok paneOf _ _ 0 fun l hl j => ?_
    have hsome := h l hl
    unfold paneOf
    cases hx : paneCore l with
    | none => rw [hx] at hsome; simp at hsome
    | some x => simp
  · rintro ⟨l, hl, hnone⟩
    exact parseLinesWith_error paneOf _ _ 0 l hl fun j => by simp [paneOf, hnone]

theorem c4_parsers_all_or_nothing_witness :
    (∃ xs, ParseSessions "default: 2 windows (created X) [140x20] (attached)\nbuild: 1 windows (created Y) [120x30]" = .ok xs ∧ xs.length = 2) ∧
    (∃ e, ParseSessions "not a valid line" = .error e) ∧
    (∃ xs, ParseWindows "0: pwsh* (2 panes) [140x20]" = .ok xs ∧ xs.length = 1) ∧
    (∃ e, ParseWindows "garbage data" = .error e) ∧
    (∃ xs, ParsePanes "%2: [140x19] mouse=None/Default" = .ok xs ∧ xs.length = 1) ∧
    (∃ e, ParsePanes "not a pane" = .error e) := by
  refine ⟨?_, ?_, ?_, ?_, ?_, ?_⟩
  · obtain ⟨xs, hxs, hlen⟩ :=
      (c4_parsers_all_or_nothing
        "default: 2 windows (created X) [140x20] (attached)\nbuild: 1 windows (created Y) [120x30]").1
        (by decide)
    exact ⟨xs, hxs, by rw [hlen]; decide⟩
  · exact (c4_parsers_all_or_nothing "not a valid line").2.1
      ⟨trimGo "not a valid line".data, by decide, by decide⟩
  · obtain ⟨xs, hxs, hlen⟩ :=
      (c4_parsers_all_or_nothing "0: pwsh* (2 panes) [140x20]").2.2.1 (by decide)
    exact ⟨xs, hxs, by rw [hlen]; decide⟩
  · exact (c4_parsers_all_or_nothing "garbage data").2.2.2.1
      ⟨trimGo "garbage data".data, by decide, by decide⟩
  · obtain ⟨xs, hxs, hlen⟩ :=
      (c4_parsers_all_or_nothing "%2: [140x19] mouse=None/Default").2.2.2.2.1 (by decide)
    exact ⟨xs, hxs, by rw [hlen]; decide⟩
  · exact (c4_parsers_all_or_nothing "not a pane").2.2.2.2.2
      ⟨trimGo "not a pane".data, by decide, by decide⟩

/-! ## Multiplexer controller (pkg/psmux/controller.go)

Subprocess execution is abstracted by an oracle mapping the psmux argument
vector to stdout or an error; controller operations additionally return the
ordered list of issued invocations. -/

/-- Oracle for `exec.Command("psmux", args...).Output()`. -/
def Run : Type := List String → Except String String

/-- Controller state: target session, cached layout, close channel. -/
structure CState where
  sessionName : String
  layoutCache : Option Layout
  closeChanClosed : Bool
deriving Repr, DecidableEq

/-- `runPsmux`: any subprocess failure is wrapped with the attempted command. -/
def runPsmux (run : Run) (args : List String) : Except String String :=
  match run args with
  | .error e =>
    .error ("psmux command failed (" ++ String.intercalate " " args ++ "): " ++ e)
  | .ok o => .ok o

/-- Outcome of a controller operation: new state, issued subprocess calls in
order, and the returned error if any. -/
structure OpResult where
  state : CState
  trace : List (List String)
  err : Option String
deriving Repr, DecidableEq

/-- The sessions loop of `RefreshLayout`: mark the summary matching the
target name active. -/
def markSessions (name : String) (ss : List Session) : List Session :=
  ss.map fun s => { s with Active := s.Name == name }

/-- The sessions loop's `layout.SessionID` assignment (last match wins). -/
def sessionIDOf (name : String) : List Session → String → String
  | [], acc => acc
  | s :: ss, acc => sessionIDOf name ss (if s.Name == name then s.ID else acc)

/-- The pane-listing target for a window: `NAME:INDEX`. -/
def panesTarget (name : String) (w : Window) : List String :=
  ["list-panes", "-t", name ++ ":" ++ toString w.Index]

/-- Accumulator of the windows loop of `RefreshLayout`. -/
structure WinAcc where
  wins : List Window
  awin : Option String
  apane : Option String
  tr : List (List String)
deriving Repr, DecidableEq

/-- The windows loop of `RefreshLayout`: remember the active window's id, try
to list and parse each window's panes (tolerating failure by leaving the
window without panes), and remember the first pane of the active window.
Later windows overwrite earlier ones for the active ids, as in the Go loop. -/
def refreshWindows (run : Run) (name : String) : List Window → WinAcc
  | [] => ⟨[], none, none, []⟩
  | w :: ws =>
    let rest := refreshWindows run name ws
    let thisAw : Option String := if w.Active then some w.ID else none
    let cmd := panesTarget name w
    match runPsmux run cmd with
    | .error _ => ⟨w :: rest.wins, rest.awin <|> thisAw, rest.apane, cmd :: rest.tr⟩
    | .ok out =>
      match ParsePanes out with
      | .error _ => ⟨w :: rest.wins, rest.awin <|> thisAw, rest.apane, cmd :: rest.tr⟩
      | .ok panes =>
        let thisAp : Option String := if w.Active then panes.head?.map Pane.ID else none
        ⟨{ w with Panes := panes } :: rest.wins, rest.awin <|> thisAw,
         rest.apane <|> thisAp, cmd :: rest.tr⟩

/-- `RefreshLayout`: list and parse sessions then windows (either failure
aborts with the wrapped error and leaves the state untouched); run the
windows loop; atomically publish the new layout. -/
def refreshLayout (run : Run) (c : CState) : OpResult :=
  match runPsmux run ["ls"] with
  | .error e => ⟨c, [["ls"]], some ("failed to list sessions: " ++ e)⟩
  | .ok so =>
    match ParseSessions so with
    | .error e => ⟨c, [["ls"]], some ("failed to parse sessions: " ++ e)⟩
    | .ok ss =>
      match runPsmux run ["list-windows", "-t", c.sessionName] with
      | .error e =>
        ⟨c, [["ls"], ["list-windows", "-t", c.sessionName]],
         some ("failed to list windows: " ++ e)⟩
      | .ok wo =>
        match ParseWindows wo with
        | .error e =>
          ⟨c, [["ls"], ["list-windows", "-t", c.sessionName]],
           some ("failed to parse windows: " ++ e)⟩
        | .ok ws =>
          let acc := refreshWindows run c.sessionName ws
          let layout : Layout :=
            { SessionID := sessionIDOf c.sessionName ss ""
              SessionName := c.sessionName
              Sessions := markSessions c.sessionName ss
              Windows := acc.wins
              ActiveWinID := acc.awin.getD ""
              ActivePaneID := acc.apane.getD "" }
          ⟨{ c with layoutCache := some layout },
           [["ls"], ["list-windows", "-t", c.sessionName]] ++ acc.tr, none⟩

/-- `SelectPane`: one mutating call; on its failure return the wrapped error
without refreshing; on success refresh (the refresh error is discarded) and
return nil. -/
def selectPane (run : Run) (c : CState) (paneID : String) : OpResult :=
  match runPsmux run ["select-pane", "-t", paneID] with
  | .error e => ⟨c, [["select-pane", "-t", paneID]], some e⟩
  | .ok _ =>
    let r := refreshLayout run c
    ⟨r.state, ["select-pane", "-t", paneID] :: r.trace, none⟩

/-- `Stop`: Go `close(c.closeChan)` with no guard; closing an already-closed
channel panics at runtime with this message. -/
def stop (c : CState) : Except String CState :=
  if c.closeChanClosed then .error "close of closed channel"
  else .ok { c with closeChanClosed := true }

/-- The read-only psmux verbs used by `RefreshLayout` and `Start`. -/
def isListing (args : List String) : Bool :=
  match args.head? with
  | some v => v == "ls" || v == "list-windows" || v == "list-panes" || v == "has-session"
  | none => false

/-- A psmux invocation that mutates multiplexer state. -/
def isMutating (args : List String) : Bool := !(isListing args)

/-! ### Controller lemmas -/

theorem windowOf_panes (l : List Char) (w : Window) (h : windowOf l = some w) :
    w.Panes = [] := by
  unfold windowOf at h
  cases hx : windowCore l with
  | none => rw [hx] at h; cases h
  | some x => rw [hx] at h; cases h; rfl

theorem parseLinesWith_mem {α : Type} (f : Nat → List Char → Option α) (msg : String) :
    ∀ (ls : List (List Char)) (i : Nat) (xs : List α),
      parseLinesWith f msg ls i = .ok xs →
      ∀ x ∈ xs, ∃ j l, f j l = some x := by
  intro ls
  induction ls with
  | nil =>
    intro i xs h x hx
    simp only [parseLinesWith] at h
    cases h
    simp at hx
  | cons l rest ih =>
    intro i xs h x hx
    by_cases he : (trimGo l).isEmpty
    · rw [parseLinesWith, if_pos he] at h
      exact ih (i + 1) xs h x hx
    · rw [parseLinesWith, if_neg he] at h
      cases hf : f i (trimGo l) with
      | none => rw [hf] at h; cases h
      | some a =>
        rw [hf] at h
        cases hrec : parseLinesWith f msg rest (i + 1) with
        | error e => rw [hrec] at h; cases h
        | ok as =>
          rw [hrec] at h
          cases h
          rcases List.mem_cons.mp hx with rfl | hx2
          · exact ⟨i, trimGo l, hf⟩
          · exact ih (i + 1) as hrec x hx2

theorem ParseWindows_panes (wo : String) (ws : List Window)
    (h : ParseWindows wo = .ok ws) : ∀ w ∈ ws, w.Panes = [] := by
  intro w hw
  obtain ⟨j, l, hfl⟩ := parseLinesWith_mem _ _ _ 0 ws h w hw
  exact windowOf_panes l w hfl

/-- Pane listing or parsing fails for window `w`. -/
def paneListingFails (run : Run) (name : String) (w : Window) : Prop :=
  (∃ e, runPsmux run (panesTarget name w) = .error e) ∨
  (∃ o e, runPsmux run (panesTarget name w) = .ok o ∧ ParsePanes o = .error e)

theorem refreshWindows_wins_get (run : Run) (name : String) :
    ∀ (ws : List Window) (i : Nat) (w : Window), ws[i]? = some w →
      paneListingFails run name w →
      (refreshWindows run name ws).wins[i]? = some w := by
  intro ws
  induction ws with
  | nil => intro i w h _; simp at h
  | cons x rest ih =>
    intro i w h hfail
    cases i with
    | zero =>
      simp only [List.getElem?_cons_zero, Option.some.injEq] at h
      subst h
      rcases hfail with ⟨e, he⟩ | ⟨o, e, ho, he⟩
      · simp [refreshWindows, he]
      · simp [refreshWindows, ho, he]
    | succ n =>
      simp only [List.getElem?_cons_succ] at h
      have hr := ih n w h hfail
      cases hrp : runPsmux run (panesTarget name x) with
      | error e => simpa [refreshWindows, hrp] using hr
      | ok out =>
        cases hpp : ParsePanes out with
        | error e => simpa [refreshWindows, hrp, hpp] using hr
        | ok panes => simpa [refreshWindows, hrp, hpp] using hr

theorem refreshWindows_wins_length (run : Run) (name : String) :
    ∀ ws : List Window, (refreshWindows run name ws).wins.length = ws.length := by
  intro ws
  induction ws with
  | nil => rfl
  | cons x rest ih =>
    cases hrp : runPsmux run (panesTarget name x) with
    | error e => simp [refreshWindows, hrp, ih]
    | ok out =>
      cases hpp : ParsePanes out with
      | error e => simp [refreshWindows, hrp, hpp, ih]
      | ok panes => simp [refreshWindows, hrp, hpp, ih]

theorem refreshWindows_tr_listing (run : Run) (name : String) :
    ∀ ws : List Window, ∀ a ∈ (refreshWindows run name ws).tr, isListing a = true := by
  intro ws
  induction ws with
  | nil => intro a ha; simp [refreshWindows] at ha
  | cons x rest ih =>
    intro a ha
    have hstep : ∀ b, b = panesTarget name x ∨ b ∈ (refreshWindows run name rest).tr →
        isListing b = true := by
      rintro b (rfl | hb)
      · rfl
      · exact ih b hb
    cases hrp : runPsmux run (panesTarget name x) with
    | error e =>
      simp only [refreshWindows, hrp] at ha
      exact hstep a (List.mem_cons.mp ha)
    | ok out =>
      cases hpp : ParsePanes out with
      | error e =>
        simp only [refreshWindows, hrp, hpp] at ha
        exact hstep a (List.mem_cons.mp ha)
      | ok panes =>
        simp only [refreshWindows, hrp, hpp] at ha
        exact hstep a (List.mem_cons.mp ha)

theorem refreshWindows_apane_inactive (run : Run) (name : String) :
    ∀ ws : List Window, (∀ w ∈ ws, w.Active = false) →
      (refreshWindows run name ws).apane = none := by
  intro ws
  induction ws with
  | nil => intro _; rfl
  | cons x rest ih =>
    intro hall
    have hx : x.Active = false := hall x (by simp)
    have hr := ih fun w hw => hall w (by simp [hw])
    cases hrp : runPsmux run (panesTarget name x) with
    | error e => simp [refreshWindows, hrp, hr]
    | ok out =>
      cases hpp : ParsePanes out with
      | error e => simp [refreshWindows, hrp, hpp, hr]
      | ok panes => simp [refreshWindows, hrp, hpp, hr, hx]

theorem refreshWindows_apane_active (run : Run) (name : String)
    (w : Window) (hw : w.Active = true) (po : String) (p : Pane) (ps : List Pane)
    (hpo : runPsmux run (panesTarget name w) = .ok po)
    (hpp : ParsePanes po = .ok (p :: ps)) :
    ∀ (xs ys : List Window), (∀ y ∈ ys, y.Active = false) →
      (refreshWindows run name (xs ++ w :: ys)).apane = some p.ID := by
  intro xs
  induction xs with
  | nil =>
    intro ys hys
    have hrest := refreshWindows_apane_inactive run name ys hys
    simp [refreshWindows, hpo, hpp, hrest, hw]
  | cons x rest ih =>
    intro ys hys
    have hr := ih ys hys
    cases hrp : runPsmux run (panesTarget name x) with
    | error e => simp [refreshWindows, hrp, hr]
    | ok out =>
      cases hpp2 : ParsePanes out with
      | error e => simp [refreshWindows, hrp, hpp2, hr]
      | ok panes => simp [refreshWindows, hrp, hpp2, hr]

/-- The layout a successful refresh publishes. -/
def publishedLayout (run : Run) (c : CState) (ss : List Session) (ws : List Window) : Layout :=
  { SessionID := sessionIDOf c.sessionName ss ""
    SessionName := c.sessionName
    Sessions := markSessions c.sessionName ss
    Windows := (refreshWindows run c.sessionName ws).wins
    ActiveWinID := (refreshWindows run c.sessionName ws).awin.getD ""
    ActivePaneID := (refreshWindows run c.sessionName ws).apane.getD "" }

theorem refreshLayout_ok (run : Run) (c : CState) (so wo : String)
    (ss : List Session) (ws : List Window)
    (h1 : runPsmux run ["ls"] = .ok so) (h2 : ParseSessions so = .ok ss)
    (h3 : runPsmux run ["list-windows", "-t", c.sessionName] = .ok wo)
    (h4 : ParseWindows wo = .ok ws) :
    refreshLayout run c =
      ⟨{ c with layoutCache := some (publishedLayout run c ss ws) },
       [["ls"], ["list-windows", "-t", c.sessionName]] ++
         (refreshWindows run c.sessionName ws).tr, none⟩ := by
  simp [refreshLayout, publishedLayout, h1, h2, h3, h4]

/-! ### C5: refresh atomicity and pane-failure tolerance -/

/-- C5: if listing or parsing sessions or windows fails, `RefreshLayout`
returns that error and leaves the state (hence the cached layout) exactly as
before; if they all succeed, the refresh succeeds even when pane listing or
parsing fails for individual windows, and each such window is published in
the new layout unchanged, i.e. with an empty pane list. -/
theorem c5_refresh_atomic_tolerant (run : Run) (c : CState) :
    ((refreshLayout run c).err.isSome → (refreshLayout run c).state = c) ∧
    (∀ so ss wo ws,
      runPsmux run ["ls"] = .ok so → ParseSessions so = .ok ss →
      runPsmux run ["list-windows", "-t", c.sessionName] = .ok wo →
      ParseWindows wo = .ok ws →
      (refreshLayout run c).err = none ∧
      ∃ L, (refreshLayout run c).state.layoutCache = some L ∧
        L.Windows.length = ws.length ∧
        ∀ (i : Nat) (w : Window), ws[i]? = some w →
          paneListingFails run c.sessionName w →
          L.Windows[i]? = some w ∧ w.Panes = []) := by
  constructor
  · intro herr
    cases h1 : runPsmux run ["ls"] with
    | error e => simp [refreshLayout, h1]
    | ok so =>
      cases h2 : ParseSessions so with
      | error e => simp [refreshLayout, h1, h2]
      | ok ss =>
        cases h3 : runPsmux run ["list-windows", "-t", c.sessionName] with
        | error e => simp [refreshLayout, h1, h2, h3]
        | ok wo =>
          cases h4 : ParseWindows wo with
          | error e => simp [refreshLayout, h1, h2, h3, h4]
          | ok ws => simp [refreshLayout, h1, h2, h3, h4] at herr
  · intro so ss wo ws h1 h2 h3 h4
    rw [refreshLayout_ok run c so wo ss ws h1 h2 h3 h4]
    refine ⟨rfl, publishedLayout run c ss ws, rfl,
      refreshWindows_wins_length run c.sessionName ws, ?_⟩
    intro i w hi hfail
    exact ⟨refreshWindows_wins_get run c.sessionName ws i w hi hfail,
      ParseWindows_panes wo ws h4 w (List.getElem?_mem hi)⟩

/-- Concrete oracle for the C5 witness: sessions and windows list fine, the
pane listing fails. -/
def c5run : Run := fun args =>
  if args = ["ls"] then .ok "s: 1 windows (created X) [80x24]"
  else if args = ["list-windows", "-t", "s"] then .ok "0: sh* (1 panes) [80x24]"
  else .error "boom"

/-- Concrete controller state for the C5 witness. -/
def c5ctrl : CState := ⟨"s", none, false⟩

theorem c5_refresh_atomic_tolerant_witness :
    (refreshLayout c5run c5ctrl).err = none ∧
    ∃ L, (refreshLayout c5run c5ctrl).state.layoutCache = some L ∧
      L.Windows[0]? = some ⟨"@0", "sh", 0, true, []⟩ := by
  obtain ⟨herr, L, hL, hlen, hwin⟩ := (c5_refresh_atomic_tolerant c5run c5ctrl).2
    "s: 1 windows (created X) [80x24]" [⟨"s", "s", 1, false, false⟩]
    "0: sh* (1 panes) [80x24]" [⟨"@0", "sh", 0, true, []⟩]
    rfl rfl rfl rfl
  have hw := hwin 0 ⟨"@0", "sh", 0, true, []⟩ rfl
    (Or.inl ⟨"psmux command failed (list-panes -t s:0): boom", rfl⟩)
  exact ⟨herr, L, hL, hw.1⟩

/-! ### C6: SelectPane -/

/-- C6: when the select-pane subprocess call succeeds and the listings
describe a multiplexer whose single active window lists the requested pane
first, `SelectPane` returns nil after issuing exactly one mutating call
followed by one successful refresh (every further call is a read-only
listing), and the published layout's active pane id is the requested id;
when the subprocess call fails, `SelectPane` returns the error wrapped with
the attempted command, issues no further calls, and leaves the state — and
hence the cached layout — unchanged. -/
theorem c6_select_pane (run : Run) (c : CState) (pid : String) :
    (∀ (o so wo po : String) (ss : List Session) (xs ys : List Window)
        (w : Window) (p : Pane) (ps : List Pane),
      run ["select-pane", "-t", pid] = .ok o →
      runPsmux run ["ls"] = .ok so → ParseSessions so = .ok ss →
      runPsmux run ["list-windows", "-t", c.sessionName] = .ok wo →
      ParseWindows wo = .ok (xs ++ w :: ys) →
      w.Active = true → (∀ y ∈ ys, y.Active = false) →
      runPsmux run (panesTarget c.sessionName w) = .ok po →
      ParsePanes po = .ok (p :: ps) → p.ID = pid →
      (selectPane run c pid).err = none ∧
      (selectPane run c pid).trace =
        ["select-pane", "-t", pid] :: (refreshLayout run c).trace ∧
      isMutating ["select-pane", "-t", pid] = true ∧
      (∀ a ∈ (refreshLayout run c).trace, isMutating a = false) ∧
      (refreshLayout run c).err = none ∧
      ∃ L, (selectPane run c pid).state.layoutCache = some L ∧
        L.ActivePaneID = pid) ∧
    (∀ e, run ["select-pane", "-t", pid] = .error e →
      selectPane run c pid =
        ⟨c, [["select-pane", "-t", pid]],
         some ("psmux command failed (" ++
           String.intercalate " " ["select-pane", "-t", pid] ++ "): " ++ e)⟩) := by
  constructor
  · intro o so wo po ss xs ys w p ps hsel h1 h2 h3 h4 hw hys hpo hpp hpid
    have hr := refreshLayout_ok run c so wo ss (xs ++ w :: ys) h1 h2 h3 h4
    have hap := refreshWindows_apane_active run c.sessionName w hw po p ps hpo hpp xs ys hys
    have hsel2 : runPsmux run ["select-pane", "-t", pid] = .ok o := by
      simp [runPsmux, hsel]
    refine ⟨by simp [selectPane, hsel2], by simp [selectPane, hsel2], rfl, ?_, ?_, ?_⟩
    · intro a ha
      rw [hr] at ha
      rcases List.mem_append.mp ha with hmem | hmem
      · rcases List.mem_cons.mp hmem with rfl | hmem2
        · rfl
        · rcases List.mem_cons.mp hmem2 with rfl | hmem3
          · rfl
          · simp at hmem3
      · have hl := refreshWindows_tr_listing run c.sessionName (xs ++ w :: ys) a hmem
        simp [isMutating, hl]
    · rw [hr]
    · refine ⟨publishedLayout run c ss (xs ++ w :: ys), ?_, ?_⟩
      · simp [selectPane, hsel2, hr]
      · simp [publishedLayout, hap, hpid]
  · intro e he
    simp [selectPane, runPsmux, he]

/-- Concrete oracle for the C6 witness: everything succeeds and the single
active window lists the requested pane first after the selection. -/
def c6run : Run := fun args =>
  if args = ["select-pane", "-t", "%1"] then .ok ""
  else if args = ["ls"] then .ok "s: 1 windows (created X) [80x24]"
  else if args = ["list-windows", "-t", "s"] then .ok "0: sh* (1 panes) [80x24]"
  else if args = ["list-panes", "-t", "s:0"] then .ok "%1: [80x24]"
  else .error "unknown"

/-- Always-failing oracle for the C6 witness's failure half. -/
def c6fail : Run := fun _ => .error "boom"

/-- Concrete controller state for the C6 witness. -/
def c6ctrl : CState := ⟨"s", none, false⟩

theorem c6_select_pane_witness :
    (selectPane c6run c6ctrl "%1").err = none ∧
    (∃ L, (selectPane c6run c6ctrl "%1").state.layoutCache = some L ∧
      L.ActivePaneID = "%1") ∧
    selectPane c6fail c6ctrl "%1" =
      ⟨c6ctrl, [["select-pane", "-t", "%1"]],
       some ("psmux command failed (" ++
         String.intercalate " " ["select-pane", "-t", "%1"] ++ "): " ++ "boom")⟩ := by
  have hs := (c6_select_pane c6run c6ctrl "%1").1 "" "s: 1 windows (created X) [80x24]"
    "0: sh* (1 panes) [80x24]" "%1: [80x24]"
    [⟨"s", "s", 1, false, false⟩] [] [] ⟨"@0", "sh", 0, true, []⟩
    ⟨"%1", 0, true, 80, 24, 0, 0, "", ""⟩ []
    rfl rfl rfl rfl rfl rfl (by simp) rfl rfl rfl
  have hf := (c6_select_pane c6fail c6ctrl "%1").2 "boom" rfl
  exact ⟨hs.1, hs.2.2.2.2.2, hf⟩

/-! ### C7: Stop idempotence -/

/-- C7 (code bug): `Stop` closes `closeChan` without any guard, so the
first call succeeds but a second call closes an already-closed channel and
panics at runtime, contradicting the promised idempotent no-op. -/
theorem c7_stop_double_close_panics :
    stop ⟨"main", none, false⟩ = .ok ⟨"main", none, true⟩ ∧
    (stop ⟨"main", none, false⟩).bind stop = .error "close of closed channel" :=
  ⟨rfl, rfl⟩

/-! ## PTY backend environment synthesis (localcommand New) -/

/-- The synthesized variable name:
`"HTTP_" + strings.Replace(strings.ToUpper(key), "-", "_", -1)` — only the
hyphen is substituted. -/
def envName (key : String) : String :=
  String.mk (key.data.map fun ch => if ch.toUpper = '-' then '_' else ch.toUpper)

/-- One synthesized variable: prefixed name, values joined by commas. -/
def headerVar (key : String) (values : List String) : String :=
  "HTTP_" ++ envName key ++ "=" ++ String.intercalate "," values

/-- `New`'s environment: the inherited environ, the terminal-type override,
then one synthesized variable per caller-supplied header. -/
def buildEnv (environ : List String) (headers : List (String × List String)) : List String :=
  (environ ++ ["TERM=xterm-256color"]) ++ headers.map fun kv => headerVar kv.1 kv.2

/-- Modelled from the claim's words, for comparison: upper-case the name and
replace every non-alphanumeric character with an underscore. -/
def specEnvName (key : String) : String :=
  String.mk (key.data.map fun ch => if ch.toUpper.isAlphanum then ch.toUpper else '_')

/-- C10 counterexample: a header name containing a dot keeps the dot — the
code substitutes only hyphens, while the claim would substitute every
non-alphanumeric character. -/
theorem c10_counterexample :
    headerVar "X.Token" ["a"] = "HTTP_X.TOKEN=a" ∧
    "HTTP_" ++ specEnvName "X.Token" ++ "=" ++ String.intercalate "," ["a"] =
      "HTTP_X_TOKEN=a" ∧
    headerVar "X.Token" ["a"] ≠
      "HTTP_" ++ specEnvName "X.Token" ++ "=" ++ String.intercalate "," ["a"] := by
  exact ⟨by decide, by decide, by decide⟩

/-- C10 amended: the environment is the inherited environ plus the
terminal-type override plus exactly one variable per header whose name is
the upper-cased header name with every hyphen (only) replaced by an
underscore and whose value is the values joined by commas; for header names
whose only non-alphanumeric characters are hyphens this coincides with the
claim's description. -/
theorem c10_env_amended (environ : List String) (headers : List (String × List String)) :
    buildEnv environ headers =
      environ ++ ["TERM=xterm-256color"] ++
        headers.map (fun kv => "HTTP_" ++ envName kv.1 ++ "=" ++
          String.intercalate "," kv.2) ∧
    (∀ k v, (∀ ch ∈ k.data, ch.toUpper.isAlphanum = true ∨ ch = '-') →
      headerVar k v = "HTTP_" ++ specEnvName k ++ "=" ++ String.intercalate "," v) := by
  constructor
  · simp [buildEnv, headerVar, List.append_assoc]
  · intro k v hk
    unfold headerVar specEnvName envName
    have hmap : (k.data.map fun ch => if ch.toUpper = '-' then '_' else ch.toUpper) =
        (k.data.map fun ch => if ch.toUpper.isAlphanum then ch.toUpper else '_') := by
      refine List.map_congr_left fun ch hch => ?_
      rcases hk ch hch with ha | hd
      · have hne : ch.toUpper ≠ '-' := by
          intro h
          rw [h] at ha
          exact absurd ha (by decide)
        rw [if_neg hne, if_pos ha]
      · subst hd
        rfl
    rw [hmap]

theorem c10_env_amended_witness :
    buildEnv ["PATH=/bin"] [("X-Api-Key", ["a", "b"])] =
      ["PATH=/bin", "TERM=xterm-256color", "HTTP_X_API_KEY=a,b"] ∧
    headerVar "X-Api-Key" ["a", "b"] =
      "HTTP_" ++ specEnvName "X-Api-Key" ++ "=" ++ String.intercalate "," ["a", "b"] := by
  have h := c10_env_amended ["PATH=/bin"] [("X-Api-Key", ["a", "b"])]
  refine ⟨?_, h.2 "X-Api-Key" ["a", "b"] (by decide)⟩
  rw [h.1]
  decide

end WebPsmux
